import Mathlib

/-!
Verification of the agent runtime core of `nowallstreet-runner`
(`agent/internal/runtime/runtime.go`), shallowly embedded in Lean 4.

Conventions of the embedding:
* Go `float64` fields (prices, quantities, reward scores) are modelled as
  exact rationals `ℚ`; decimal literals such as `1e-9` denote the
  corresponding rational.
* Go `uint64` is modelled as `ℕ` (the program never exercises wraparound on
  these values) and Go `int` as `ℤ`.
* Go maps with zero-value lookup are modelled as association lists with a
  lookup that defaults to the zero value.
* `strings.TrimSpace`, `strings.ToLower`, `strings.ToUpper` are modelled by
  `goTrim`, `goLower`, `goUpper`: character-list implementations of the same
  operations (ASCII case mapping, which is all the program's symbols use).
* `time.Duration` results are modelled in whole seconds (`ℤ`).
-/

namespace AgentRuntime

/-! ## Constants (runtime.go, `const` block) -/

def maxOpenOffersPerAgent : ℕ := 5

def maxOpenOffersPerAsset : ℕ := 3

def maxOpenRFQsPerAgent : ℕ := 3

def decisionMaxAttempts : ℕ := 3

def decisionMemoryLimit : ℕ := 12

def decisionSeedLimit : ℕ := 8

def defaultWaitSec : ℤ := 6

def minWaitSec : ℤ := 1

def maxWaitSec : ℤ := 60

/-- Package-level fee variables of runtime.go (`offerFeeAGC`, `rfqFeeAGC`,
`tradeFeeBps`, `syntheticMintFeePerUnitAGC`), gathered into a record; the
program initialises them to `(0, 0, 10, 0)` and never mutates them. -/
structure FeeConfig where
  offerFeeAGC : ℕ
  rfqFeeAGC : ℕ
  tradeFeeBps : ℕ
  syntheticMintFeePerUnitAGC : ℕ
deriving Repr, DecidableEq

/-- The fee values the program actually runs with. -/
def defaultFees : FeeConfig :=
  { offerFeeAGC := 0, rfqFeeAGC := 0, tradeFeeBps := 10
    syntheticMintFeePerUnitAGC := 0 }

/-! ## Data model -/

/-- `type Action struct` of runtime.go. -/
structure Action where
  action : String
  assetSymbol : String
  category : String
  priceAGC : ℚ
  qty : ℚ
  side : String
  reason : String
  nextCheckSec : ℤ
deriving Repr, DecidableEq

/-- `indexer.Offer` (the fields the runtime reads). -/
structure Offer where
  agentID : String
  priceAGC : ℚ
  qty : ℚ
  status : String
  asset : String
deriving Repr, DecidableEq

/-- `indexer.RFQ` (the fields the runtime reads). -/
structure RFQ where
  agentID : String
  maxPriceAGC : ℚ
  qty : ℚ
  status : String
  asset : String
deriving Repr, DecidableEq

/-- `indexer.Decision` (the fields the runtime reads when seeding memory). -/
structure Decision where
  decisionID : String
  action : String
  assetSymbol : String
  priceAGC : ℚ
  qty : ℚ
  side : String
  reason : String
  status : String
  error : String
  createdAt : String
deriving Repr, DecidableEq

/-- `type memoryDecision struct` of runtime.go. -/
structure MemoryDecision where
  action : String
  assetSymbol : String
  side : String
  priceAGC : ℚ
  qty : ℚ
  status : String
  error : String
  reason : String
  createdAt : String
  reward : ℚ
deriving Repr, DecidableEq

/-- Association-list lookup with Go's zero-value-on-missing-key semantics
(for `map[string]uint64` / `map[string]int` / `map[string]float64`). -/
def mapLookup {α : Type} [Zero α] (m : List (String × α)) (k : String) : α :=
  match m.find? (fun p => p.1 = k) with
  | some p => p.2
  | none => 0

/-- Go `strings.TrimSpace`: strip leading and trailing whitespace. -/
def goTrim (s : String) : String :=
  ⟨((s.data.dropWhile Char.isWhitespace).reverse.dropWhile Char.isWhitespace).reverse⟩

/-- Go `strings.ToLower` (ASCII case mapping). -/
def goLower (s : String) : String := ⟨s.data.map Char.toLower⟩

/-- Go `strings.ToUpper` (ASCII case mapping). -/
def goUpper (s : String) : String := ⟨s.data.map Char.toUpper⟩

/-- Go `math.Round`: round half away from zero. -/
def goRound (x : ℚ) : ℤ :=
  if 0 ≤ x then ⌊x + 1/2⌋ else -⌊-x + 1/2⌋

/-! ## Wait scheduling -/

/-- `normalizeWaitDuration` (runtime.go): result in whole seconds.
`time.Duration(sec) * time.Second` is `sec` seconds. -/
def normalizeWaitDuration (sec : ℤ) : ℤ :=
  let sec1 := if sec ≤ 0 then defaultWaitSec else sec
  let sec2 := if sec1 < minWaitSec then minWaitSec else sec1
  let sec3 := if sec2 > maxWaitSec then maxWaitSec else sec2
  sec3

/-! ## Strict validation -/

/-- `validateStrictAction` (runtime.go): empty string means the action is
accepted, otherwise the string is the rejection reason. -/
def validateStrictAction (a : Action) : String :=
  let act := goLower (goTrim a.action)
  if act = "post_offer" ∨ act = "create_rfq" ∨ act = "trade" ∨ act = "wait" then
    if act = "wait" then
      if a.nextCheckSec < 0 then "next_check_sec must be >= 0" else ""
    else
      let asset := goUpper (goTrim a.assetSymbol)
      if asset = "" then "asset_symbol is required"
      else if asset = "AGC" then "asset_symbol must not be AGC"
      else if a.qty ≤ 0 then "qty must be > 0"
      else if act = "trade" ∧
          ¬(goLower (goTrim a.side) = "buy" ∨ goLower (goTrim a.side) = "sell") then
        "trade side must be buy or sell"
      else if (act = "post_offer" ∨ act = "create_rfq") ∧ a.priceAGC ≤ 0 then
        "price_agc must be > 0"
      else ""
  else if act = "" then "missing action"
  else if act = "noop" then "noop is not allowed"
  else "invalid action: " ++ a.action

/-! ## Preflight and liquidity -/

/-- `isOpenStatus` (runtime.go). -/
def isOpenStatus (status : String) : Bool :=
  let s := goLower (goTrim status)
  s = "" || s = "open"

/-- The part of the `Runner` state read by `preflight` / `hasTradeLiquidity`. -/
structure RunnerSnapshot where
  agentID : String
  lastBalances : List (String × ℕ)
  lastTokenPrice : List (String × ℚ)
  lastOpenOffers : ℕ
  lastOpenRFQs : ℕ
  lastOffersByAS : List (String × ℕ)
  lastOffers : List Offer
  lastRFQs : List RFQ
deriving Repr

/-- The `const eps = 1e-9` of `hasTradeLiquidity`. -/
def liquidityEps : ℚ := 1 / 1000000000

/-- The buy-side loop of `hasTradeLiquidity`: walk the resting offers,
skipping own, non-open, other-asset and too-expensive ones, subtracting
quantities from `remaining` until it drops to within epsilon of zero. -/
def buyLiquidityLoop (agentID asset : String) (price : ℚ) :
    List Offer → ℚ → Bool
  | [], _ => false
  | o :: rest, remaining =>
    if o.agentID = agentID then buyLiquidityLoop agentID asset price rest remaining
    else if ¬ (isOpenStatus o.status = true) then
      buyLiquidityLoop agentID asset price rest remaining
    else if goUpper (goTrim o.asset) ≠ asset then
      buyLiquidityLoop agentID asset price rest remaining
    else if o.priceAGC > price + liquidityEps then
      buyLiquidityLoop agentID asset price rest remaining
    else
      if remaining - o.qty ≤ liquidityEps then true
      else buyLiquidityLoop agentID asset price rest (remaining - o.qty)

/-- The sell-side loop of `hasTradeLiquidity`, symmetric against open RFQs
whose max price is at least the asked price (within epsilon). -/
def sellLiquidityLoop (agentID asset : String) (price : ℚ) :
    List RFQ → ℚ → Bool
  | [], _ => false
  | q :: rest, remaining =>
    if q.agentID = agentID then sellLiquidityLoop agentID asset price rest remaining
    else if ¬ (isOpenStatus q.status = true) then
      sellLiquidityLoop agentID asset price rest remaining
    else if goUpper (goTrim q.asset) ≠ asset then
      sellLiquidityLoop agentID asset price rest remaining
    else if q.maxPriceAGC + liquidityEps < price then
      sellLiquidityLoop agentID asset price rest remaining
    else
      if remaining - q.qty ≤ liquidityEps then true
      else sellLiquidityLoop agentID asset price rest (remaining - q.qty)

/-- `hasTradeLiquidity` (runtime.go). It only reads the snapshot lists
`lastOffers` / `lastRFQs` and mutates nothing (it is a pure function). -/
def hasTradeLiquidity (st : RunnerSnapshot) (side asset : String)
    (price : ℚ) (qty : ℕ) : Bool :=
  if qty = 0 then false
  else
    let asset := goUpper (goTrim asset)
    let side := goLower (goTrim side)
    if asset = "" ∨ (side ≠ "buy" ∧ side ≠ "sell") then false
    else if side = "buy" then
      buyLiquidityLoop st.agentID asset price st.lastOffers (qty : ℚ)
    else
      sellLiquidityLoop st.agentID asset price st.lastRFQs (qty : ℚ)

/-- `calcTradeFee` (runtime.go): basis-point fee with natural division. -/
def calcTradeFee (fees : FeeConfig) (notional : ℕ) : ℕ :=
  if fees.tradeFeeBps = 0 ∨ notional = 0 then 0
  else notional * fees.tradeFeeBps / 10000

/-- `preflight` (runtime.go). Returns `(status, errorMessage)`; `("", "")`
means the action may proceed to execution. `uint64(math.Round(x))` is
modelled as `(goRound x).toNat`; the two agree on every non-negative
value (the conversion of a negative float to uint64 is
implementation-defined in Go). -/
def preflight (fees : FeeConfig) (st : RunnerSnapshot) (action : Action) :
    String × String :=
  if st.lastBalances.isEmpty then ("blocked", "balances unavailable")
  else
    let asset := goUpper (goTrim action.assetSymbol)
    let qty := (goRound action.qty).toNat
    if qty = 0 then ("blocked", "qty must be positive")
    else if asset = "" then ("blocked", "asset symbol missing")
    else if asset = "AGC" then ("blocked", "AGC is settlement asset")
    else
      let act := goLower (goTrim action.action)
      if act = "post_offer" then
        if st.lastOpenOffers ≥ maxOpenOffersPerAgent then
          ("blocked", "open offer limit reached")
        else if mapLookup st.lastOffersByAS asset ≥ maxOpenOffersPerAsset then
          ("blocked", "asset offer limit reached")
        else if action.priceAGC ≤ 0 then ("blocked", "price must be positive")
        else
          let assetBal := mapLookup st.lastBalances asset
          let mintQty := if assetBal < qty then qty - assetBal else 0
          let needAGC := fees.offerFeeAGC + mintQty * fees.syntheticMintFeePerUnitAGC
          if mapLookup st.lastBalances "AGC" < needAGC then
            ("blocked", "insufficient AGC for offer fee/mint")
          else ("", "")
      else if act = "create_rfq" then
        if st.lastOpenRFQs ≥ maxOpenRFQsPerAgent then
          ("blocked", "open rfq limit reached")
        else
          let price := if action.priceAGC ≤ 0 then mapLookup st.lastTokenPrice asset
            else action.priceAGC
          if price ≤ 0 then ("blocked", "price unavailable")
          else
            let cost := (goRound (price * (qty : ℚ))).toNat
            if mapLookup st.lastBalances "AGC" < cost + fees.rfqFeeAGC then
              ("blocked", "insufficient AGC balance")
            else ("", "")
      else if act = "trade" then
        let side := goLower (goTrim action.side)
        if side ≠ "buy" ∧ side ≠ "sell" then ("blocked", "side must be buy or sell")
        else
          let price := if action.priceAGC ≤ 0 then mapLookup st.lastTokenPrice asset
            else action.priceAGC
          if price ≤ 0 then ("blocked", "price unavailable")
          else
            let cost := (goRound (price * (qty : ℚ))).toNat
            let fee := calcTradeFee fees cost
            if side = "sell" then
              if mapLookup st.lastBalances asset < qty then
                ("blocked", "insufficient asset balance")
              else if mapLookup st.lastBalances "AGC" < fee then
                ("blocked", "insufficient AGC for fee")
              else if ¬ (hasTradeLiquidity st side asset price qty = true) then
                ("blocked", "no matching rfq liquidity")
              else ("", "")
            else
              if mapLookup st.lastBalances "AGC" < cost + fee then
                ("blocked", "insufficient AGC balance")
              else if ¬ (hasTradeLiquidity st side asset price qty = true) then
                ("blocked", "no matching offer liquidity")
              else ("", "")
      else ("blocked", "invalid action")

/-! ## Abbreviations for sub-expressions of `preflight` (trade arm) -/

/-- The price the trade arm of `preflight` resolves: the action's own price
if positive, otherwise the last observed market price of the asset. -/
def resolvedTradePrice (st : RunnerSnapshot) (a : Action) : ℚ :=
  if a.priceAGC ≤ 0 then mapLookup st.lastTokenPrice (goUpper (goTrim a.assetSymbol))
  else a.priceAGC

/-- The notional of a trade: `uint64(math.Round(price * float64(qty)))`. -/
def tradeNotional (st : RunnerSnapshot) (a : Action) : ℕ :=
  (goRound (resolvedTradePrice st a * (((goRound a.qty).toNat : ℕ) : ℚ))).toNat

/-- An offer that the buy side of `hasTradeLiquidity` counts: not our own,
open, same asset, and priced at most `price + eps`. -/
def eligibleBuyOffer (agentID asset : String) (price : ℚ) (o : Offer) : Bool :=
  !(o.agentID == agentID) && isOpenStatus o.status
    && (goUpper (goTrim o.asset) == asset)
    && decide (¬(o.priceAGC > price + liquidityEps))

/-- An RFQ that the sell side of `hasTradeLiquidity` counts: not our own,
open, same asset, and with max price at least `price - eps`. -/
def eligibleSellRFQ (agentID asset : String) (price : ℚ) (q : RFQ) : Bool :=
  !(q.agentID == agentID) && isOpenStatus q.status
    && (goUpper (goTrim q.asset) == asset)
    && decide (¬(q.maxPriceAGC + liquidityEps < price))

/-! ## Concrete inputs used by the witnesses -/

/-- First resting offer of the liquidity witness. -/
def liqOffer1 : Offer :=
  { agentID := "other", priceAGC := 4, qty := 1, status := "open", asset := "X" }

/-- Second resting offer of the liquidity witness. -/
def liqOffer2 : Offer :=
  { agentID := "other", priceAGC := 5, qty := 1, status := "", asset := "X" }

/-- Snapshot for the liquidity witness: two non-self open offers for X
totalling 2 units at prices at or below 5. -/
def liqSnapshot : RunnerSnapshot :=
  { agentID := "me", lastBalances := [("AGC", 100)], lastTokenPrice := []
    lastOpenOffers := 0, lastOpenRFQs := 0, lastOffersByAS := []
    lastOffers := [liqOffer1, liqOffer2]
    lastRFQs := [] }

/-- Snapshot for the trade witness: 20 AGC of settlement balance and one
non-self open offer of 10 X at price 2. -/
def tradeSnapshot : RunnerSnapshot :=
  { agentID := "me", lastBalances := [("AGC", 20), ("X", 0)], lastTokenPrice := []
    lastOpenOffers := 0, lastOpenRFQs := 0, lastOffersByAS := []
    lastOffers := [{ agentID := "other", priceAGC := 2, qty := 10, status := "open", asset := "X" }]
    lastRFQs := [] }

/-- The same snapshot with only 19 AGC of settlement balance. -/
def tradeSnapshot19 : RunnerSnapshot :=
  { tradeSnapshot with lastBalances := [("AGC", 19), ("X", 0)] }

/-- trade buy(X, qty=10, price=2), the example of the spec. -/
def tradeBuyAction : Action :=
  { action := "trade", assetSymbol := "X", category := "", priceAGC := 2
    qty := 10, side := "buy", reason := "", nextCheckSec := 0 }

/-- Snapshot for the post_offer witness: balances AGC=100, X=0, no open
offers. -/
def offerSnapshot : RunnerSnapshot :=
  { agentID := "me", lastBalances := [("AGC", 100), ("X", 0)], lastTokenPrice := []
    lastOpenOffers := 0, lastOpenRFQs := 0, lastOffersByAS := []
    lastOffers := [], lastRFQs := [] }

/-- post_offer(X, qty=2, price=5), the example of the spec. -/
def postOfferAction : Action :=
  { action := "post_offer", assetSymbol := "X", category := "", priceAGC := 5
    qty := 2, side := "", reason := "", nextCheckSec := 0 }

/-! ## Decision memory -/

/-- Is `sub` a prefix of the second list? (helper for `strings.Contains`). -/
def charsStartWith : List Char → List Char → Bool
  | [], _ => true
  | _ :: _, [] => false
  | a :: as, b :: bs => a == b && charsStartWith as bs

/-- Does the list contain `sub` as a contiguous sub-list? -/
def charsContain (sub : List Char) : List Char → Bool
  | [] => charsStartWith sub []
  | c :: rest => charsStartWith sub (c :: rest) || charsContain sub rest

/-- Go `strings.Contains s sub`. -/
def strContains (s sub : String) : Bool := charsContain sub.data s.data

/-- `scoreDecisionOutcome` (runtime.go): status base plus stacked error
category penalties, applied by successive in-place updates. -/
def scoreDecisionOutcome (status errMsg : String) : ℚ :=
  let score : ℚ :=
    if goLower (goTrim status) = "executed" then 0.8
    else if goLower (goTrim status) = "wait" then 0.2
    else if goLower (goTrim status) = "blocked" then -0.3
    else if goLower (goTrim status) = "rejected" then -0.7
    else -0.1
  let errLower := goLower (goTrim errMsg)
  if errLower = "" then score
  else
    let score1 := if strContains errLower "decision_error"
        || strContains errLower "parse error" then score - 0.5 else score
    let score2 := if strContains errLower "asset_symbol is required"
        || strContains errLower "invalid action" then score1 - 0.4 else score1
    let score3 := if strContains errLower "insufficient" then score2 - 0.2 else score2
    let score4 := if strContains errLower "no matching"
        || strContains errLower "liquidity" then score3 - 0.1 else score3
    score4

/-- The status base of the reward score, as the spec tabulates it. -/
def rewardStatusBase (status : String) : ℚ :=
  if goLower (goTrim status) = "executed" then 0.8
  else if goLower (goTrim status) = "wait" then 0.2
  else if goLower (goTrim status) = "blocked" then -0.3
  else if goLower (goTrim status) = "rejected" then -0.7
  else -0.1

/-- The additive penalties of the recognized error categories, as the spec
lists them (applied to the lower-cased trimmed message). -/
def rewardPenalties (errLower : String) : ℚ :=
  (if strContains errLower "decision_error"
      || strContains errLower "parse error" then (-0.5 : ℚ) else 0)
  + (if strContains errLower "asset_symbol is required"
      || strContains errLower "invalid action" then (-0.4 : ℚ) else 0)
  + (if strContains errLower "insufficient" then (-0.2 : ℚ) else 0)
  + (if strContains errLower "no matching"
      || strContains errLower "liquidity" then (-0.1 : ℚ) else 0)

/-- The entry normalization performed by `pushDecisionMemory` before the
append: default status "logged", default created-at `now` (which stands for
`time.Now().UTC().Format(time.RFC3339)`). -/
def normalizePushedEntry (entry : MemoryDecision) (now : String) : MemoryDecision :=
  let entry1 := if goTrim entry.status = "" then { entry with status := "logged" } else entry
  if goTrim entry1.createdAt = "" then { entry1 with createdAt := now } else entry1

/-- `pushDecisionMemory` (runtime.go): drop empty-kind entries, normalize,
append, and keep only the newest `decisionMemoryLimit` entries. -/
def pushDecisionMemory (mem : List MemoryDecision) (entry : MemoryDecision)
    (now : String) : List MemoryDecision :=
  if goTrim entry.action = "" then mem
  else
    let mem1 := mem ++ [normalizePushedEntry entry now]
    if mem1.length > decisionMemoryLimit then
      mem1.drop (mem1.length - decisionMemoryLimit)
    else mem1

/-! ## Memory seeding -/

/-- The filter of `seedDecisionMemory`: keep history decisions whose kind is
neither empty nor "noop". -/
def seedKeep (item : Decision) : Bool :=
  !(goLower (goTrim item.action) = "" || goLower (goTrim item.action) = "noop")

/-- The `sort.SliceStable` comparator of `seedDecisionMemory`: ascending
trimmed created-at, ties broken by decision ID. -/
def seedLess (a b : Decision) : Bool :=
  if goTrim a.createdAt = goTrim b.createdAt then decide (a.decisionID < b.decisionID)
  else decide (goTrim a.createdAt < goTrim b.createdAt)

/-- The non-strict order induced by `seedLess`; a stable sort with respect to
`seedLess` (Go's `sort.SliceStable`) is a stable `mergeSort` with respect to
this relation. -/
def seedSortLE (a b : Decision) : Bool := !(seedLess b a)

/-- The decisions `seedDecisionMemory` actually pushes: filter, stable sort,
keep the last `decisionSeedLimit`. -/
def seedSelection (history : List Decision) : List Decision :=
  let decisions := history.filter seedKeep
  let sorted := decisions.mergeSort seedSortLE
  if sorted.length > decisionSeedLimit then
    sorted.drop (sorted.length - decisionSeedLimit)
  else sorted

/-- The memory entry built from a history decision in `seedDecisionMemory`. -/
def decisionToMemory (item : Decision) : MemoryDecision :=
  { action := goLower (goTrim item.action)
    assetSymbol := goUpper (goTrim item.assetSymbol)
    side := goLower (goTrim item.side)
    priceAGC := item.priceAGC
    qty := item.qty
    status := goLower (goTrim item.status)
    error := goTrim item.error
    reason := goTrim item.reason
    createdAt := goTrim item.createdAt
    reward := scoreDecisionOutcome (goTrim item.status) (goTrim item.error) }

/-- `seedDecisionMemory` (runtime.go), after the once-per-process guard and
history fetch: push every selected decision into the memory buffer. -/
def seedDecisionMemory (mem : List MemoryDecision) (history : List Decision)
    (now : String) : List MemoryDecision :=
  (seedSelection history).foldl
    (fun m item => pushDecisionMemory m (decisionToMemory item) now) mem

/-! ## Strict decision engine -/

/-- `llm.Prompt`. -/
structure Prompt where
  system : String
  user : String
deriving Repr, DecidableEq

/-- `strictRetryPrompt` (runtime.go): append the rejection reason and the
attempt count to the base user prompt. -/
def strictRetryPrompt (base : Prompt) (reason : String) (attempt : ℕ) : Prompt :=
  { system := base.system
    user := base.user
      ++ "\nPrevious output was rejected (" ++ goTrim reason ++ "). Attempt "
      ++ toString (attempt + 1) ++ "/" ++ toString decisionMaxAttempts ++ ". "
      ++ "Return exactly one JSON object with action in [\x27post_offer\x27,\x27create_rfq\x27,\x27trade\x27,\x27wait\x27]. "
      ++ "For wait, provide next_check_sec (1-60). For trade, include side. No noop, no markdown." }

/-- Outcome of one `LLM.Generate` call: transport error or raw model text. -/
inductive GenOut where
  | failure (err : String)
  | success (response : String)
deriving Repr, DecidableEq

/-- One iteration of `decideStrict`'s attempt loop. `parse` stands for
`parseAction` (its JSON decoding is library behaviour) and `normalizeRepair`
for `normalizeAction` followed by `repairAction` (the latter reads runner
state and Go map iteration order). Returns the accepted `(action, raw)` or
the updated `(lastRaw, lastErr)` pair. -/
def strictAttempt (parse : String → Except String Action)
    (normalizeRepair : Action → Action) (out : GenOut)
    (lastRaw lastErr : String) : (Action × String) ⊕ (String × String) :=
  match out with
  | .failure e => .inr (lastRaw, "llm error: " ++ e)
  | .success response =>
    let raw := goTrim response
    match parse raw with
    | .error parseErr => .inr (raw, "parse error: " ++ parseErr)
    | .ok action0 =>
      let action1 := normalizeRepair action0
      let validationErr := validateStrictAction action1
      if validationErr = "" then .inl (action1, raw)
      else .inr (raw, validationErr)

/-- The final error message of `decideStrict`. -/
def strictFailMsg (lastErr : String) : String :=
  "failed to produce strict action after " ++ toString decisionMaxAttempts
    ++ " attempts: " ++ lastErr

/-- The attempt loop of `decideStrict`. `gen k` is the outcome of the
generate call on attempt `k` (numbered from 1); `fuel` is the number of
attempts left. Besides the result it returns the log of
(prompt sent, rejection reason recorded) per attempt, with reason "" for the
accepted attempt. -/
def decideStrictLoop (gen : ℕ → GenOut) (parse : String → Except String Action)
    (normalizeRepair : Action → Action) (base : Prompt) :
    ℕ → ℕ → Prompt → String → String →
      (Except (String × String) (Action × String)) × List (Prompt × String)
  | _, 0, _, lastRaw, lastErr => (.error (lastRaw, strictFailMsg lastErr), [])
  | attempt, fuel + 1, prompt, lastRaw, lastErr =>
    match strictAttempt parse normalizeRepair (gen attempt) lastRaw lastErr with
    | .inl result => (.ok result, [(prompt, "")])
    | .inr (raw1, err1) =>
      if fuel = 0 then (.error (raw1, strictFailMsg err1), [(prompt, err1)])
      else
        let next := decideStrictLoop gen parse normalizeRepair base
          (attempt + 1) fuel (strictRetryPrompt base err1 attempt) raw1 err1
        (next.1, (prompt, err1) :: next.2)

/-- `decideStrict` (runtime.go): up to `decisionMaxAttempts` attempts from
the base prompt, starting with lastRaw "" and lastErr "no decision
produced". -/
def decideStrict (gen : ℕ → GenOut) (parse : String → Except String Action)
    (normalizeRepair : Action → Action) (base : Prompt) :
    (Except (String × String) (Action × String)) × List (Prompt × String) :=
  decideStrictLoop gen parse normalizeRepair base 1 decisionMaxAttempts base
    "" "no decision produced"

/-- C7 witness entry already in the buffer. -/
def memEntryA : MemoryDecision :=
  { action := "wait", assetSymbol := "", side := "", priceAGC := 0, qty := 0
    status := "wait", error := "", reason := ""
    createdAt := "2024-01-01T00:00:00Z", reward := 0.2 }

/-- C7 witness entry to push. -/
def memEntryB : MemoryDecision :=
  { action := "trade", assetSymbol := "X", side := "buy", priceAGC := 2, qty := 1
    status := "executed", error := "", reason := ""
    createdAt := "2024-01-02T00:00:00Z", reward := 0.8 }

/-- C5 witness: a well-formed wait action. -/
def waitActionEx : Action :=
  { action := "wait", assetSymbol := "", category := "", priceAGC := 0
    qty := 0, side := "", reason := "model_wait", nextCheckSec := 5 }

/-- C9 witness: an action with kind "noop". -/
def noopActionEx : Action :=
  { action := "noop", assetSymbol := "", category := "", priceAGC := 0
    qty := 0, side := "", reason := "", nextCheckSec := 0 }

/-- C9 witness: an action with an unsupported kind. -/
def badKindActionEx : Action :=
  { action := "frobnicate", assetSymbol := "", category := "", priceAGC := 0
    qty := 0, side := "", reason := "", nextCheckSec := 0 }

/-- C6 witness: a generate oracle whose every call fails. -/
def constFailGen : ℕ → GenOut := fun _ => GenOut.failure "boom"

/-- C6 witness: a parse that always rejects (never reached here). -/
def failParse : String → Except String Action := fun _ => Except.error "bad json"

/-- C6 witness: a base prompt. -/
def basePromptEx : Prompt := { system := "sys", user := "user" }

end AgentRuntime

namespace AgentRuntime

/-! ## Theorems -/

/-- Helper: an if-chain of two blocking messages equals the ok pair exactly
when neither condition holds. -/
theorem ite_chain2_ok {α : Type} {c1 c2 : Prop} [Decidable c1] [Decidable c2]
    {m1 m2 ok : α} (n1 : m1 ≠ ok) (n2 : m2 ≠ ok) :
    ((if c1 then m1 else if c2 then m2 else ok) = ok) ↔ ¬c1 ∧ ¬c2 := by
  split_ifs with a b
  · exact iff_of_false n1 (by tauto)
  · exact iff_of_false n2 (by tauto)
  · exact iff_of_true rfl ⟨a, b⟩

/-- Helper: an if-chain of three blocking messages equals the ok pair exactly
when none of the conditions holds. -/
theorem ite_chain3_ok {α : Type} {c1 c2 c3 : Prop}
    [Decidable c1] [Decidable c2] [Decidable c3]
    {m1 m2 m3 ok : α} (n1 : m1 ≠ ok) (n2 : m2 ≠ ok) (n3 : m3 ≠ ok) :
    ((if c1 then m1 else if c2 then m2 else if c3 then m3 else ok) = ok) ↔
      ¬c1 ∧ ¬c2 ∧ ¬c3 := by
  split_ifs with a b c
  · exact iff_of_false n1 (by tauto)
  · exact iff_of_false n2 (by tauto)
  · exact iff_of_false n3 (by tauto)
  · exact iff_of_true rfl ⟨a, b, c⟩

/-- Helper: an if-chain of four blocking messages equals the ok pair exactly
when none of the conditions holds. -/
theorem ite_chain4_ok {α : Type} {c1 c2 c3 c4 : Prop}
    [Decidable c1] [Decidable c2] [Decidable c3] [Decidable c4]
    {m1 m2 m3 m4 ok : α} (n1 : m1 ≠ ok) (n2 : m2 ≠ ok) (n3 : m3 ≠ ok)
    (n4 : m4 ≠ ok) :
    ((if c1 then m1 else if c2 then m2 else if c3 then m3
        else if c4 then m4 else ok) = ok) ↔ ¬c1 ∧ ¬c2 ∧ ¬c3 ∧ ¬c4 := by
  split_ifs with a b c d
  · exact iff_of_false n1 (by tauto)
  · exact iff_of_false n2 (by tauto)
  · exact iff_of_false n3 (by tauto)
  · exact iff_of_false n4 (by tauto)
  · exact iff_of_true rfl ⟨a, b, c, d⟩

/-- C1 (amended): `normalizeWaitDuration` returns the 6-second default for
every non-positive hint (so hint = −5 yields 6 s, not 1 s) and clamps
positive hints into [1, 60]; hint = 0 yields 6 s and hint = 200 yields 60 s. -/
theorem normalizeWaitDuration_spec :
    (∀ sec : ℤ, normalizeWaitDuration sec =
        if sec ≤ 0 then defaultWaitSec else max minWaitSec (min maxWaitSec sec))
    ∧ normalizeWaitDuration 0 = 6
    ∧ normalizeWaitDuration 200 = 60
    ∧ normalizeWaitDuration (-5) = 6 := by
  refine ⟨?_, by decide, by decide, by decide⟩
  intro sec
  simp only [normalizeWaitDuration, defaultWaitSec, minWaitSec, maxWaitSec]
  split_ifs <;> omega

/-- C1, counterexample to the claim as stated: the claim says a hint of −5
yields a 1-second wait, but `normalizeWaitDuration (-5)` is 6 seconds. -/
theorem normalizeWaitDuration_neg5_not_one :
    normalizeWaitDuration (-5) = 6 ∧ normalizeWaitDuration (-5) ≠ 1 := by
  decide

/-- Helper: a string starting with the sixteen characters of
"invalid action: " never equals "" and never equals "noop is not allowed". -/
theorem invalid_action_message_distinct (s : String) :
    "invalid action: " ++ s ≠ "" ∧ "invalid action: " ++ s ≠ "noop is not allowed" := by
  constructor
  · intro hcontra
    have hd := congrArg String.data hcontra
    rw [String.data_append] at hd
    have e1 : "invalid action: ".data =
        ['i', 'n', 'v', 'a', 'l', 'i', 'd', ' ', 'a', 'c', 't', 'i', 'o', 'n', ':', ' '] := rfl
    have e2 : "".data = ([] : List Char) := rfl
    rw [e1, e2] at hd
    simp at hd
  · intro hcontra
    have hd := congrArg String.data hcontra
    rw [String.data_append] at hd
    have e1 : "invalid action: ".data =
        ['i', 'n', 'v', 'a', 'l', 'i', 'd', ' ', 'a', 'c', 't', 'i', 'o', 'n', ':', ' '] := rfl
    have e2 : "noop is not allowed".data =
        ['n', 'o', 'o', 'p', ' ', 'i', 's', ' ', 'n', 'o', 't', ' ',
         'a', 'l', 'l', 'o', 'w', 'e', 'd'] := rfl
    rw [e1, e2] at hd
    simp only [List.cons_append, List.cons.injEq] at hd
    exact absurd hd.1 (by decide)

/-- C5: every action accepted by `validateStrictAction` has one of the four
canonical kinds; a wait has a non-negative hint; a non-wait has a non-empty
asset distinct from the settlement symbol AGC and positive qty; a trade has
side buy or sell; post_offer and create_rfq have positive price. -/
theorem validateStrictAction_accepts_sound (a : Action)
    (h : validateStrictAction a = "") :
    (goLower (goTrim a.action) = "post_offer" ∨ goLower (goTrim a.action) = "create_rfq"
      ∨ goLower (goTrim a.action) = "trade" ∨ goLower (goTrim a.action) = "wait")
    ∧ (goLower (goTrim a.action) = "wait" → 0 ≤ a.nextCheckSec)
    ∧ (goLower (goTrim a.action) ≠ "wait" →
        goUpper (goTrim a.assetSymbol) ≠ "" ∧ goUpper (goTrim a.assetSymbol) ≠ "AGC"
          ∧ 0 < a.qty)
    ∧ (goLower (goTrim a.action) = "trade" →
        goLower (goTrim a.side) = "buy" ∨ goLower (goTrim a.side) = "sell")
    ∧ ((goLower (goTrim a.action) = "post_offer" ∨ goLower (goTrim a.action) = "create_rfq")
        → 0 < a.priceAGC) := by
  simp only [validateStrictAction] at h
  split_ifs at h with h1 h2 h3 h4 h5 h6 h7 h8 h9 h10
  all_goals try exact absurd h (by decide)
  -- three goals remain: wait accepted, non-wait accepted, invalid-kind branch
  · -- wait accepted: h2 : act = "wait", h3 : ¬(a.nextCheckSec < 0)
    refine ⟨h1, fun _ => by omega, fun hn => absurd h2 hn,
      fun ht => absurd (h2.symm.trans ht) (by decide), fun hp => ?_⟩
    rcases hp with hp | hp <;> exact absurd (h2.symm.trans hp) (by decide)
  · -- non-wait accepted
    push_neg at h7 h8
    exact ⟨h1, fun hw => absurd hw h2, fun _ => ⟨h4, h5, lt_of_not_le h6⟩, h7, h8⟩
  · -- unsupported kind branch: h is an invalid-action message equal to ""
    exact absurd h (invalid_action_message_distinct a.action).1

/-- C9: an action whose normalized kind is exactly "noop" is rejected with
the literal message "noop is not allowed"; any other unsupported non-empty
kind gets the generic message "invalid action: " followed by the raw kind,
which is never equal to the noop message. -/
theorem validateStrictAction_noop_distinct (a : Action) :
    (goLower (goTrim a.action) = "noop" →
      validateStrictAction a = "noop is not allowed")
    ∧ (goLower (goTrim a.action) ≠ "post_offer" → goLower (goTrim a.action) ≠ "create_rfq"
        → goLower (goTrim a.action) ≠ "trade" → goLower (goTrim a.action) ≠ "wait"
        → goLower (goTrim a.action) ≠ "" → goLower (goTrim a.action) ≠ "noop"
        → validateStrictAction a = "invalid action: " ++ a.action
          ∧ validateStrictAction a ≠ "noop is not allowed") := by
  constructor
  · intro hno
    simp only [validateStrictAction]
    rw [hno]
    have c1 : ¬("noop" = "post_offer" ∨ "noop" = "create_rfq"
        ∨ "noop" = "trade" ∨ "noop" = "wait") := by decide
    have c2 : ¬(("noop" : String) = "") := by decide
    rw [if_neg c1, if_neg c2, if_pos rfl]
  · intro h1 h2 h3 h4 h5 h6
    simp only [validateStrictAction]
    have c1 : ¬(goLower (goTrim a.action) = "post_offer"
        ∨ goLower (goTrim a.action) = "create_rfq"
        ∨ goLower (goTrim a.action) = "trade" ∨ goLower (goTrim a.action) = "wait") := by
      push_neg
      exact ⟨h1, h2, h3, h4⟩
    rw [if_neg c1, if_neg h5, if_neg h6]
    exact ⟨rfl, (invalid_action_message_distinct a.action).2⟩

/-- C3: for a post_offer reaching preflight with rounded qty > 0 and a valid
asset, preflight succeeds exactly when the agent is under the 5-offer limit,
the asset is under the 3-offer limit, the price is positive, and the
settlement balance covers offer fee plus (qty minus held balance, floored at
zero) times the per-unit mint fee. -/
theorem preflight_post_offer_spec (fees : FeeConfig) (st : RunnerSnapshot)
    (a : Action)
    (hbal : st.lastBalances.isEmpty ≠ true)
    (hact : goLower (goTrim a.action) = "post_offer")
    (ha1 : goUpper (goTrim a.assetSymbol) ≠ "")
    (ha2 : goUpper (goTrim a.assetSymbol) ≠ "AGC")
    (hq : 0 < (goRound a.qty).toNat) :
    preflight fees st a = ("", "") ↔
      st.lastOpenOffers < maxOpenOffersPerAgent
      ∧ mapLookup st.lastOffersByAS (goUpper (goTrim a.assetSymbol)) < maxOpenOffersPerAsset
      ∧ 0 < a.priceAGC
      ∧ fees.offerFeeAGC
          + ((goRound a.qty).toNat - mapLookup st.lastBalances (goUpper (goTrim a.assetSymbol)))
            * fees.syntheticMintFeePerUnitAGC
          ≤ mapLookup st.lastBalances "AGC" := by
  have hq' : ¬((goRound a.qty).toNat = 0) := by omega
  have hmint : (if mapLookup st.lastBalances (goUpper (goTrim a.assetSymbol))
        < (goRound a.qty).toNat then
        (goRound a.qty).toNat - mapLookup st.lastBalances (goUpper (goTrim a.assetSymbol))
      else 0)
      = (goRound a.qty).toNat - mapLookup st.lastBalances (goUpper (goTrim a.assetSymbol)) := by
    split_ifs with hlt
    · rfl
    · omega
  simp only [preflight, hact]
  rw [if_neg hbal, if_neg hq', if_neg ha1, if_neg ha2, if_pos trivial, hmint]
  rw [ite_chain4_ok (by decide) (by decide) (by decide) (by decide)]
  constructor
  · rintro ⟨x1, x2, x3, x4⟩
    exact ⟨not_le.mp x1, not_le.mp x2, not_le.mp x3, not_lt.mp x4⟩
  · rintro ⟨x1, x2, x3, x4⟩
    exact ⟨not_le.mpr x1, not_le.mpr x2, not_le.mpr x3, not_lt.mpr x4⟩

/-- C3 witness: with balances AGC=100 and X=0, both fees zero and no open
offers, post_offer(X, qty=2, price=5) passes preflight. -/
theorem preflight_post_offer_spec_witness :
    preflight defaultFees offerSnapshot postOfferAction = ("", "") := by
  have hq2 : (goRound postOfferAction.qty).toNat = 2 := by
    have h2 : goRound postOfferAction.qty = 2 := by norm_num [goRound, postOfferAction]
    rw [h2]; rfl
  exact (preflight_post_offer_spec defaultFees offerSnapshot postOfferAction
    (by decide) (by decide) (by decide) (by decide) (by rw [hq2]; decide)).mpr
    ⟨by decide, by decide, by decide, by rw [hq2]; decide⟩

/-- C2: for a trade reaching preflight with rounded qty > 0 and a valid
asset: the fee is floor(notional * 10 / 10000) (feeBps = 10); an unresolved
price blocks; a sell is allowed exactly when the asset balance covers qty,
the settlement balance covers the fee, and matching RFQ liquidity exists;
a buy is allowed exactly when the settlement balance covers notional + fee
and matching offer liquidity exists. -/
theorem preflight_trade_spec (st : RunnerSnapshot) (a : Action)
    (hbal : st.lastBalances.isEmpty ≠ true)
    (hact : goLower (goTrim a.action) = "trade")
    (ha1 : goUpper (goTrim a.assetSymbol) ≠ "")
    (ha2 : goUpper (goTrim a.assetSymbol) ≠ "AGC")
    (hq : 0 < (goRound a.qty).toNat) :
    calcTradeFee defaultFees (tradeNotional st a) = tradeNotional st a * 10 / 10000
    ∧ ((goLower (goTrim a.side) = "buy" ∨ goLower (goTrim a.side) = "sell") →
        resolvedTradePrice st a ≤ 0 →
        preflight defaultFees st a = ("blocked", "price unavailable"))
    ∧ (goLower (goTrim a.side) = "sell" → 0 < resolvedTradePrice st a →
        (preflight defaultFees st a = ("", "") ↔
          (goRound a.qty).toNat ≤ mapLookup st.lastBalances (goUpper (goTrim a.assetSymbol))
          ∧ calcTradeFee defaultFees (tradeNotional st a) ≤ mapLookup st.lastBalances "AGC"
          ∧ hasTradeLiquidity st "sell" (goUpper (goTrim a.assetSymbol))
              (resolvedTradePrice st a) ((goRound a.qty).toNat) = true))
    ∧ (goLower (goTrim a.side) = "buy" → 0 < resolvedTradePrice st a →
        (preflight defaultFees st a = ("", "") ↔
          tradeNotional st a + calcTradeFee defaultFees (tradeNotional st a)
            ≤ mapLookup st.lastBalances "AGC"
          ∧ hasTradeLiquidity st "buy" (goUpper (goTrim a.assetSymbol))
              (resolvedTradePrice st a) ((goRound a.qty).toNat) = true)) := by
  have hq' : ¬((goRound a.qty).toNat = 0) := by omega
  have key : preflight defaultFees st a =
      (if goLower (goTrim a.side) ≠ "buy" ∧ goLower (goTrim a.side) ≠ "sell" then
        ("blocked", "side must be buy or sell")
      else if resolvedTradePrice st a ≤ 0 then ("blocked", "price unavailable")
      else if goLower (goTrim a.side) = "sell" then
        (if mapLookup st.lastBalances (goUpper (goTrim a.assetSymbol))
            < (goRound a.qty).toNat then
          ("blocked", "insufficient asset balance")
        else if mapLookup st.lastBalances "AGC"
            < calcTradeFee defaultFees (tradeNotional st a) then
          ("blocked", "insufficient AGC for fee")
        else if ¬(hasTradeLiquidity st (goLower (goTrim a.side))
            (goUpper (goTrim a.assetSymbol)) (resolvedTradePrice st a)
            ((goRound a.qty).toNat) = true) then
          ("blocked", "no matching rfq liquidity")
        else ("", ""))
      else
        (if mapLookup st.lastBalances "AGC"
            < tradeNotional st a + calcTradeFee defaultFees (tradeNotional st a) then
          ("blocked", "insufficient AGC balance")
        else if ¬(hasTradeLiquidity st (goLower (goTrim a.side))
            (goUpper (goTrim a.assetSymbol)) (resolvedTradePrice st a)
            ((goRound a.qty).toNat) = true) then
          ("blocked", "no matching offer liquidity")
        else ("", ""))) := by
    simp only [preflight, resolvedTradePrice, tradeNotional, hact]
    rw [if_neg hbal, if_neg hq', if_neg ha1, if_neg ha2,
      if_neg (show ¬(("trade" : String) = "post_offer") by decide),
      if_neg (show ¬(("trade" : String) = "create_rfq") by decide),
      if_pos trivial]
  refine ⟨?_, ?_, ?_, ?_⟩
  · -- fee formula at feeBps = 10
    rw [calcTradeFee]
    rcases Nat.eq_zero_or_pos (tradeNotional st a) with h0 | h0
    · rw [if_pos (Or.inr h0), h0]
    · rw [if_neg]
      · rfl
      · push_neg
        exact ⟨by decide, by omega⟩
  · -- unresolved price blocks
    intro hside hple
    have hcond : ¬(goLower (goTrim a.side) ≠ "buy" ∧ goLower (goTrim a.side) ≠ "sell") := by
      tauto
    rw [key, if_neg hcond, if_pos hple]
  · -- sell characterization
    intro hsell hp
    have hcond : ¬(goLower (goTrim a.side) ≠ "buy" ∧ goLower (goTrim a.side) ≠ "sell") := by
      intro hx
      exact hx.2 hsell
    rw [key, if_neg hcond, if_neg (not_le.mpr hp), if_pos hsell, hsell]
    rw [ite_chain3_ok (by decide) (by decide) (by decide)]
    constructor
    · rintro ⟨x1, x2, x3⟩
      exact ⟨not_lt.mp x1, not_lt.mp x2, not_not.mp x3⟩
    · rintro ⟨x1, x2, x3⟩
      exact ⟨not_lt.mpr x1, not_lt.mpr x2, not_not_intro x3⟩
  · -- buy characterization
    intro hbuy hp
    have hcond : ¬(goLower (goTrim a.side) ≠ "buy" ∧ goLower (goTrim a.side) ≠ "sell") := by
      intro hx
      exact hx.1 hbuy
    have hns : ¬(goLower (goTrim a.side) = "sell") := by
      rw [hbuy]; decide
    rw [key, if_neg hcond, if_neg (not_le.mpr hp), if_neg hns, hbuy]
    rw [ite_chain2_ok (by decide) (by decide)]
    constructor
    · rintro ⟨x1, x2⟩
      exact ⟨not_lt.mp x1, not_not.mp x2⟩
    · rintro ⟨x1, x2⟩
      exact ⟨not_lt.mpr x1, not_not_intro x2⟩

/-- C2 witness: trade buy(X, qty=10, price=2) gives notional 20 and fee 0;
with settlement balance 20 and matching offer liquidity it proceeds, and
with settlement balance 19 it does not pass preflight. -/
theorem preflight_trade_spec_witness :
    preflight defaultFees tradeSnapshot tradeBuyAction = ("", "")
    ∧ preflight defaultFees tradeSnapshot19 tradeBuyAction ≠ ("", "") := by
  have hq10 : (goRound tradeBuyAction.qty).toNat = 10 := by
    have h2 : goRound tradeBuyAction.qty = 10 := by norm_num [goRound, tradeBuyAction]
    rw [h2]; rfl
  have hprice : resolvedTradePrice tradeSnapshot tradeBuyAction = 2 := by
    norm_num [resolvedTradePrice, tradeBuyAction]
  have hprice19 : resolvedTradePrice tradeSnapshot19 tradeBuyAction = 2 := by
    norm_num [resolvedTradePrice, tradeBuyAction]
  have hnot : tradeNotional tradeSnapshot tradeBuyAction = 20 := by
    have h2 : goRound (resolvedTradePrice tradeSnapshot tradeBuyAction
        * (((goRound tradeBuyAction.qty).toNat : ℕ) : ℚ)) = 20 := by
      rw [hprice, hq10]
      norm_num [goRound]
    rw [tradeNotional, h2]; rfl
  have hnot19 : tradeNotional tradeSnapshot19 tradeBuyAction = 20 := by
    have h2 : goRound (resolvedTradePrice tradeSnapshot19 tradeBuyAction
        * (((goRound tradeBuyAction.qty).toNat : ℕ) : ℚ)) = 20 := by
      rw [hprice19, hq10]
      norm_num [goRound]
    rw [tradeNotional, h2]; rfl
  have hliq : hasTradeLiquidity tradeSnapshot "buy" (goUpper (goTrim tradeBuyAction.assetSymbol))
      (resolvedTradePrice tradeSnapshot tradeBuyAction)
      ((goRound tradeBuyAction.qty).toNat) = true := by
    rw [hprice, hq10]
    have ea : goUpper (goTrim tradeBuyAction.assetSymbol) = "X" := by decide
    rw [ea]
    simp only [hasTradeLiquidity, tradeSnapshot]
    rw [if_neg (show ¬((10:ℕ) = 0) by decide)]
    rw [if_neg (show ¬(goUpper (goTrim "X") = ""
      ∨ (goLower (goTrim "buy") ≠ "buy" ∧ goLower (goTrim "buy") ≠ "sell")) by decide)]
    rw [if_pos (show goLower (goTrim "buy") = "buy" by decide)]
    simp only [buyLiquidityLoop]
    rw [if_neg (show ¬(("other" : String) = "me") by decide)]
    rw [if_neg (show ¬¬(isOpenStatus "open" = true) by decide)]
    rw [if_neg (show ¬(goUpper (goTrim "X") ≠ goUpper (goTrim "X")) by decide)]
    rw [if_neg (show ¬((2:ℚ) > 2 + liquidityEps) by norm_num [liquidityEps])]
    rw [if_pos (show (((10:ℕ):ℚ)) - 10 ≤ liquidityEps by norm_num [liquidityEps])]
  constructor
  · exact ((preflight_trade_spec tradeSnapshot tradeBuyAction (by decide) (by decide)
      (by decide) (by decide) (by rw [hq10]; decide)).2.2.2 (by decide)
      (by rw [hprice]; norm_num)).mpr
      ⟨by rw [hnot]; decide, hliq⟩
  · intro hcontra
    have h19 := ((preflight_trade_spec tradeSnapshot19 tradeBuyAction (by decide) (by decide)
      (by decide) (by decide) (by rw [hq10]; decide)).2.2.2 (by decide)
      (by rw [hprice19]; norm_num)).mp hcontra
    have hx := h19.1
    rw [hnot19] at hx
    revert hx
    decide

/-- One step of the buy loop, phrased through the eligibility predicate. -/
theorem buyLiquidityLoop_cons (agentID asset : String) (price : ℚ)
    (o : Offer) (rest : List Offer) (rem : ℚ) :
    buyLiquidityLoop agentID asset price (o :: rest) rem =
      if eligibleBuyOffer agentID asset price o then
        (if rem - o.qty ≤ liquidityEps then true
         else buyLiquidityLoop agentID asset price rest (rem - o.qty))
      else buyLiquidityLoop agentID asset price rest rem := by
  simp only [buyLiquidityLoop]
  by_cases e1 : o.agentID = agentID
  · rw [if_pos e1]
    simp [eligibleBuyOffer, e1]
  · rw [if_neg e1]
    by_cases e2 : isOpenStatus o.status = true
    · rw [if_neg (not_not_intro e2)]
      by_cases e3 : goUpper (goTrim o.asset) = asset
      · rw [if_neg (not_not_intro e3)]
        by_cases e4 : o.priceAGC > price + liquidityEps
        · rw [if_pos e4]
          simp [eligibleBuyOffer, e1, e2, e3, e4]
        · rw [if_neg e4]
          simp [eligibleBuyOffer, e1, e2, e3, e4]
      · rw [if_pos e3]
        simp [eligibleBuyOffer, e3]
    · rw [if_pos e2]
      simp [eligibleBuyOffer, e2]

/-- One step of the sell loop, phrased through the eligibility predicate. -/
theorem sellLiquidityLoop_cons (agentID asset : String) (price : ℚ)
    (q : RFQ) (rest : List RFQ) (rem : ℚ) :
    sellLiquidityLoop agentID asset price (q :: rest) rem =
      if eligibleSellRFQ agentID asset price q then
        (if rem - q.qty ≤ liquidityEps then true
         else sellLiquidityLoop agentID asset price rest (rem - q.qty))
      else sellLiquidityLoop agentID asset price rest rem := by
  simp only [sellLiquidityLoop]
  by_cases e1 : q.agentID = agentID
  · rw [if_pos e1]
    simp [eligibleSellRFQ, e1]
  · rw [if_neg e1]
    by_cases e2 : isOpenStatus q.status = true
    · rw [if_neg (not_not_intro e2)]
      by_cases e3 : goUpper (goTrim q.asset) = asset
      · rw [if_neg (not_not_intro e3)]
        by_cases e4 : q.maxPriceAGC + liquidityEps < price
        · rw [if_pos e4]
          simp [eligibleSellRFQ, e1, e2, e3, e4]
        · rw [if_neg e4]
          simp [eligibleSellRFQ, e1, e2, e3, e4]
      · rw [if_pos e3]
        simp [eligibleSellRFQ, e3]
    · rw [if_pos e2]
      simp [eligibleSellRFQ, e2]

/-- The buy loop succeeds exactly when the eligible offers' quantities sum to
at least `rem - eps` (quantities assumed non-negative, `rem > eps`). -/
theorem buyLiquidityLoop_sum (agentID asset : String) (price : ℚ)
    (offers : List Offer) :
    ∀ rem : ℚ, (∀ o ∈ offers, 0 ≤ o.qty) → liquidityEps < rem →
      (buyLiquidityLoop agentID asset price offers rem = true ↔
        rem - liquidityEps ≤
          ((offers.filter (eligibleBuyOffer agentID asset price)).map Offer.qty).sum) := by
  induction offers with
  | nil =>
    intro rem _ hrem
    simp only [buyLiquidityLoop, List.filter_nil, List.map_nil, List.sum_nil]
    constructor
    · intro hfalse
      exact absurd hfalse (by decide)
    · intro hle
      linarith
  | cons o rest ih =>
    intro rem hq hrem
    have hq' : ∀ x ∈ rest, 0 ≤ x.qty := fun x hx => hq x (List.mem_cons_of_mem _ hx)
    have hoq : 0 ≤ o.qty := hq o (List.mem_cons_self _ _)
    have hsum : 0 ≤ ((rest.filter (eligibleBuyOffer agentID asset price)).map Offer.qty).sum := by
      apply List.sum_nonneg
      intro x hx
      obtain ⟨y, hy, rfl⟩ := List.mem_map.mp hx
      exact hq' y (List.mem_of_mem_filter hy)
    rw [buyLiquidityLoop_cons, List.filter_cons]
    by_cases hel : eligibleBuyOffer agentID asset price o = true
    · rw [if_pos hel, if_pos hel, List.map_cons, List.sum_cons]
      by_cases hstop : rem - o.qty ≤ liquidityEps
      · rw [if_pos hstop]
        constructor
        · intro _
          linarith
        · intro _
          rfl
      · rw [if_neg hstop]
        rw [ih (rem - o.qty) hq' (by linarith)]
        constructor
        · intro hx
          linarith
        · intro hx
          linarith
    · rw [if_neg hel, if_neg hel, ih rem hq' hrem]

/-- The sell loop succeeds exactly when the eligible RFQs' quantities sum to
at least `rem - eps` (quantities assumed non-negative, `rem > eps`). -/
theorem sellLiquidityLoop_sum (agentID asset : String) (price : ℚ)
    (rfqs : List RFQ) :
    ∀ rem : ℚ, (∀ q ∈ rfqs, 0 ≤ q.qty) → liquidityEps < rem →
      (sellLiquidityLoop agentID asset price rfqs rem = true ↔
        rem - liquidityEps ≤
          ((rfqs.filter (eligibleSellRFQ agentID asset price)).map RFQ.qty).sum) := by
  induction rfqs with
  | nil =>
    intro rem _ hrem
    simp only [sellLiquidityLoop, List.filter_nil, List.map_nil, List.sum_nil]
    constructor
    · intro hfalse
      exact absurd hfalse (by decide)
    · intro hle
      linarith
  | cons q rest ih =>
    intro rem hq hrem
    have hq' : ∀ x ∈ rest, 0 ≤ x.qty := fun x hx => hq x (List.mem_cons_of_mem _ hx)
    have hqq : 0 ≤ q.qty := hq q (List.mem_cons_self _ _)
    have hsum : 0 ≤ ((rest.filter (eligibleSellRFQ agentID asset price)).map RFQ.qty).sum := by
      apply List.sum_nonneg
      intro x hx
      obtain ⟨y, hy, rfl⟩ := List.mem_map.mp hx
      exact hq' y (List.mem_of_mem_filter hy)
    rw [sellLiquidityLoop_cons, List.filter_cons]
    by_cases hel : eligibleSellRFQ agentID asset price q = true
    · rw [if_pos hel, if_pos hel, List.map_cons, List.sum_cons]
      by_cases hstop : rem - q.qty ≤ liquidityEps
      · rw [if_pos hstop]
        constructor
        · intro _
          linarith
        · intro _
          rfl
      · rw [if_neg hstop]
        rw [ih (rem - q.qty) hq' (by linarith)]
        constructor
        · intro hx
          linarith
        · intro hx
          linarith
    · rw [if_neg hel, if_neg hel, ih rem hq' hrem]

/-- C4: the liquidity check (a pure function of the snapshot) succeeds for a
buy at price P, qty Q exactly when the quantities of non-self open offers for
the asset priced at most P (within the 1e-9 epsilon) sum to at least Q (also
within the epsilon); for a sell, symmetrically over non-self open RFQs with
max price at least P. -/
theorem hasTradeLiquidity_spec (st : RunnerSnapshot) (sideArg assetArg : String)
    (price : ℚ) (qty : ℕ)
    (hasset : goUpper (goTrim assetArg) ≠ "")
    (hqty : 0 < qty)
    (hoff : ∀ o ∈ st.lastOffers, 0 ≤ o.qty)
    (hrfq : ∀ q ∈ st.lastRFQs, 0 ≤ q.qty) :
    (goLower (goTrim sideArg) = "buy" →
      (hasTradeLiquidity st sideArg assetArg price qty = true ↔
        (qty : ℚ) - liquidityEps ≤
          ((st.lastOffers.filter
            (eligibleBuyOffer st.agentID (goUpper (goTrim assetArg)) price)).map
              Offer.qty).sum))
    ∧ (goLower (goTrim sideArg) = "sell" →
      (hasTradeLiquidity st sideArg assetArg price qty = true ↔
        (qty : ℚ) - liquidityEps ≤
          ((st.lastRFQs.filter
            (eligibleSellRFQ st.agentID (goUpper (goTrim assetArg)) price)).map
              RFQ.qty).sum)) := by
  have hq0 : ¬(qty = 0) := by omega
  have hrem : liquidityEps < (qty : ℚ) := by
    have h1 : (1:ℚ) ≤ (qty : ℚ) := by exact_mod_cast hqty
    have h2 : liquidityEps < 1 := by norm_num [liquidityEps]
    linarith
  constructor
  · intro hbuy
    simp only [hasTradeLiquidity, hbuy]
    rw [if_neg hq0,
      if_neg (show ¬(goUpper (goTrim assetArg) = ""
        ∨ (("buy" : String) ≠ "buy" ∧ ("buy" : String) ≠ "sell")) from
        fun h => h.elim hasset (fun hx => hx.1 rfl)),
      if_pos trivial]
    exact buyLiquidityLoop_sum st.agentID (goUpper (goTrim assetArg)) price
      st.lastOffers (qty : ℚ) hoff hrem
  · intro hsell
    simp only [hasTradeLiquidity, hsell]
    rw [if_neg hq0,
      if_neg (show ¬(goUpper (goTrim assetArg) = ""
        ∨ (("sell" : String) ≠ "buy" ∧ ("sell" : String) ≠ "sell")) from
        fun h => h.elim hasset (fun hx => hx.2 rfl)),
      if_neg (show ¬(("sell" : String) = "buy") by decide)]
    exact sellLiquidityLoop_sum st.agentID (goUpper (goTrim assetArg)) price
      st.lastRFQs (qty : ℚ) hrfq hrem

/-- C4 witness: buy(X, price=5, qty=3) against a book holding only 2 units
at qualifying prices fails the liquidity check. -/
theorem hasTradeLiquidity_spec_witness :
    hasTradeLiquidity liqSnapshot "buy" "X" 5 3 = false := by
  have h := (hasTradeLiquidity_spec liqSnapshot "buy" "X" 5 3 (by decide) (by decide)
    (by decide) (by decide)).1 (by decide)
  cases hb : hasTradeLiquidity liqSnapshot "buy" "X" 5 3 with
  | false => rfl
  | true =>
    exfalso
    have h2 := h.mp hb
    have e1 : eligibleBuyOffer liqSnapshot.agentID (goUpper (goTrim "X")) 5 liqOffer1 = true := by
      simp only [eligibleBuyOffer, liqSnapshot, liqOffer1, Bool.and_eq_true,
        Bool.not_eq_true', beq_eq_false_iff_ne, beq_iff_eq, decide_eq_true_eq]
      norm_num [liquidityEps]
      exact ⟨by decide, by decide⟩
    have e2 : eligibleBuyOffer liqSnapshot.agentID (goUpper (goTrim "X")) 5 liqOffer2 = true := by
      simp only [eligibleBuyOffer, liqSnapshot, liqOffer2, Bool.and_eq_true,
        Bool.not_eq_true', beq_eq_false_iff_ne, beq_iff_eq, decide_eq_true_eq]
      norm_num [liquidityEps]
      exact ⟨by decide, by decide⟩
    rw [show liqSnapshot.lastOffers = [liqOffer1, liqOffer2] from rfl,
      List.filter_cons, if_pos e1, List.filter_cons, if_pos e2, List.filter_nil,
      List.map_cons, List.map_cons, List.map_nil, List.sum_cons, List.sum_cons,
      List.sum_nil,
      show liqOffer1.qty = 1 from rfl, show liqOffer2.qty = 1 from rfl] at h2
    norm_num [liquidityEps] at h2

/-- C7: starting from a buffer of length at most 12, a push keeps the length
at most 12, and pushing an accepted entry into a full buffer appends it and
evicts exactly the oldest entry (FIFO). -/
theorem pushDecisionMemory_spec (mem : List MemoryDecision)
    (entry : MemoryDecision) (now : String)
    (hlen : mem.length ≤ decisionMemoryLimit) :
    (pushDecisionMemory mem entry now).length ≤ decisionMemoryLimit
    ∧ (goTrim entry.action ≠ "" → mem.length = decisionMemoryLimit →
        pushDecisionMemory mem entry now =
          mem.drop 1 ++ [normalizePushedEntry entry now]) := by
  unfold pushDecisionMemory
  simp only [decisionMemoryLimit] at hlen ⊢
  by_cases hact : goTrim entry.action = ""
  · rw [if_pos hact]
    exact ⟨hlen, fun hne _ => absurd hact hne⟩
  · rw [if_neg hact]
    have hlen1 : (mem ++ [normalizePushedEntry entry now]).length = mem.length + 1 := by
      simp
    by_cases hfull : (mem ++ [normalizePushedEntry entry now]).length > 12
    · rw [if_pos hfull]
      refine ⟨?_, ?_⟩
      · rw [List.length_drop]
        omega
      · intro _ hfull12
        have hnum : (mem ++ [normalizePushedEntry entry now]).length - 12 = 1 := by
          rw [hlen1, hfull12]
        rw [hnum, List.drop_append_of_le_length (by omega)]
    · rw [if_neg hfull]
      rw [hlen1] at hfull
      exact ⟨by omega, fun _ h12 => absurd hfull (by omega)⟩

/-- C7 witness: pushing into a full 12-entry buffer evicts the oldest entry
and keeps the length at 12. -/
theorem pushDecisionMemory_spec_witness :
    (pushDecisionMemory (List.replicate 12 memEntryA) memEntryB "now").length
        ≤ decisionMemoryLimit
    ∧ pushDecisionMemory (List.replicate 12 memEntryA) memEntryB "now" =
        (List.replicate 12 memEntryA).drop 1
          ++ [normalizePushedEntry memEntryB "now"] := by
  have h := pushDecisionMemory_spec (List.replicate 12 memEntryA) memEntryB "now"
    (by decide)
  exact ⟨h.1, h.2 (by decide) (by decide)⟩

/-- C8: the reward score equals the status base (executed 0.8, wait 0.2,
blocked −0.3, rejected −0.7, other −0.1) plus the additive sum of the
penalties of every recognized error category present in the message
(parse/decision −0.5, schema −0.4, insufficient balance −0.2,
no-matching-liquidity −0.1). -/
theorem scoreDecisionOutcome_spec (status errMsg : String) :
    scoreDecisionOutcome status errMsg =
      rewardStatusBase status + rewardPenalties (goLower (goTrim errMsg)) := by
  unfold scoreDecisionOutcome rewardStatusBase rewardPenalties
  by_cases hemp : goLower (goTrim errMsg) = ""
  · rw [hemp]
    norm_num [show strContains "" "decision_error" = false from by decide,
      show strContains "" "parse error" = false from by decide,
      show strContains "" "asset_symbol is required" = false from by decide,
      show strContains "" "invalid action" = false from by decide,
      show strContains "" "insufficient" = false from by decide,
      show strContains "" "no matching" = false from by decide,
      show strContains "" "liquidity" = false from by decide]
  · simp only [if_neg hemp]
    generalize (if goLower (goTrim status) = "executed" then (0.8 : ℚ)
      else if goLower (goTrim status) = "wait" then 0.2
      else if goLower (goTrim status) = "blocked" then -0.3
      else if goLower (goTrim status) = "rejected" then -0.7
      else -0.1) = b
    split_ifs <;> ring

/-- The seeding sort order holds exactly when created-at strictly increases,
or ties and the decision ID does not decrease. -/
theorem seedSortLE_iff (a b : Decision) :
    seedSortLE a b = true ↔
      (goTrim a.createdAt < goTrim b.createdAt
        ∨ (goTrim a.createdAt = goTrim b.createdAt ∧ a.decisionID ≤ b.decisionID)) := by
  unfold seedSortLE seedLess
  by_cases hc : goTrim b.createdAt = goTrim a.createdAt
  · rw [if_pos hc, hc]
    simp [not_lt]
  · rw [if_neg hc]
    simp only [Bool.not_eq_true', decide_eq_false_iff_not, not_lt]
    constructor
    · intro h
      rcases lt_or_eq_of_le h with h1 | h1
      · exact Or.inl h1
      · exact absurd h1.symm hc
    · intro h
      rcases h with h | h
      · exact le_of_lt h
      · exact le_of_eq h.1

/-- Transitivity of the seeding sort order. -/
theorem seedSortLE_trans (a b c : Decision)
    (hab : seedSortLE a b = true) (hbc : seedSortLE b c = true) :
    seedSortLE a c = true := by
  rw [seedSortLE_iff] at hab hbc ⊢
  rcases hab with h1 | ⟨e1, i1⟩
  · rcases hbc with h2 | ⟨e2, i2⟩
    · exact Or.inl (h1.trans h2)
    · exact Or.inl (lt_of_lt_of_eq h1 e2)
  · rcases hbc with h2 | ⟨e2, i2⟩
    · exact Or.inl (lt_of_eq_of_lt e1 h2)
    · exact Or.inr ⟨e1.trans e2, i1.trans i2⟩

/-- Totality of the seeding sort order. -/
theorem seedSortLE_total (a b : Decision) :
    (seedSortLE a b || seedSortLE b a) = true := by
  rw [Bool.or_eq_true, seedSortLE_iff, seedSortLE_iff]
  rcases lt_trichotomy (goTrim a.createdAt) (goTrim b.createdAt) with h | h | h
  · exact Or.inl (Or.inl h)
  · rcases le_total a.decisionID b.decisionID with hi | hi
    · exact Or.inl (Or.inr ⟨h, hi⟩)
    · exact Or.inr (Or.inr ⟨h.symm, hi⟩)
  · exact Or.inr (Or.inl h)

/-- C10: memory seeding pushes at most 8 (`decisionSeedLimit`) entries: the
history decisions with empty or "noop" kind are dropped, the remainder is
stably sorted ascending by trimmed created-at with decision ID as tie-break,
and only the most recent 8 of them are pushed into the buffer. -/
theorem seedDecisionMemory_spec (mem : List MemoryDecision)
    (history : List Decision) (now : String) :
    (seedSelection history).length ≤ decisionSeedLimit
    ∧ (∀ d ∈ seedSelection history,
        goLower (goTrim d.action) ≠ "" ∧ goLower (goTrim d.action) ≠ "noop")
    ∧ List.Pairwise (fun a b =>
        goTrim a.createdAt < goTrim b.createdAt
        ∨ (goTrim a.createdAt = goTrim b.createdAt ∧ a.decisionID ≤ b.decisionID))
        (seedSelection history)
    ∧ seedDecisionMemory mem history now =
        (seedSelection history).foldl
          (fun m item => pushDecisionMemory m (decisionToMemory item) now) mem := by
  have hsorted : List.Pairwise (fun a b => seedSortLE a b = true)
      ((history.filter seedKeep).mergeSort seedSortLE) :=
    List.sorted_mergeSort (fun a b c => seedSortLE_trans a b c)
      (fun a b => seedSortLE_total a b) _
  have hsel : ∀ d ∈ seedSelection history, d ∈ history.filter seedKeep := by
    intro d hd
    simp only [seedSelection] at hd
    have hmem : d ∈ (history.filter seedKeep).mergeSort seedSortLE := by
      split_ifs at hd with hgt
      · exact List.mem_of_mem_drop hd
      · exact hd
    exact (List.mergeSort_perm _ _).mem_iff.mp hmem
  refine ⟨?_, ?_, ?_, rfl⟩
  · simp only [seedSelection, decisionSeedLimit]
    split_ifs with hgt
    · rw [List.length_drop]
      omega
    · simp only [decisionSeedLimit] at hgt
      omega
  · intro d hd
    have hf := List.mem_filter.mp (hsel d hd)
    have hk := hf.2
    unfold seedKeep at hk
    simp only [Bool.not_eq_true', Bool.or_eq_false_iff, decide_eq_false_iff_not] at hk
    exact hk
  · simp only [seedSelection]
    split_ifs with hgt
    · exact ((hsorted.sublist (List.drop_sublist _ _)).imp
        (fun h => (seedSortLE_iff _ _).mp h))
    · exact hsorted.imp (fun h => (seedSortLE_iff _ _).mp h)

/-- A string that starts with a non-empty string is non-empty. -/
theorem append_ne_empty_of_left {s t : String} (h : s.data ≠ []) :
    s ++ t ≠ "" := by
  intro hc
  have hd := congrArg String.data hc
  rw [String.data_append] at hd
  exact h (List.append_eq_nil.mp hd).1

/-- A failed attempt records a non-empty rejection reason. -/
theorem strictAttempt_inr_ne_empty (parse : String → Except String Action)
    (nr : Action → Action) (out : GenOut) (lastRaw lastErr raw err : String)
    (h : strictAttempt parse nr out lastRaw lastErr = Sum.inr (raw, err)) :
    err ≠ "" := by
  cases out with
  | failure e =>
    simp only [strictAttempt, Sum.inr.injEq, Prod.mk.injEq] at h
    rw [← h.2]
    exact append_ne_empty_of_left (by decide)
  | success response =>
    simp only [strictAttempt] at h
    cases hp : parse (goTrim response) with
    | error parseErr =>
      simp only [hp, Sum.inr.injEq, Prod.mk.injEq] at h
      rw [← h.2]
      exact append_ne_empty_of_left (by decide)
    | ok action0 =>
      simp only [hp] at h
      by_cases hv : validateStrictAction (nr action0) = ""
      · rw [if_pos hv] at h
        simp at h
      · rw [if_neg hv] at h
        simp only [Sum.inr.injEq, Prod.mk.injEq] at h
        rw [← h.2]
        exact hv

/-- An accepted attempt returns an action that passes strict validation. -/
theorem strictAttempt_inl_validated (parse : String → Except String Action)
    (nr : Action → Action) (out : GenOut) (lastRaw lastErr : String)
    (a : Action) (raw : String)
    (h : strictAttempt parse nr out lastRaw lastErr = Sum.inl (a, raw)) :
    validateStrictAction a = "" := by
  cases out with
  | failure e =>
    simp only [strictAttempt] at h
    simp at h
  | success response =>
    simp only [strictAttempt] at h
    cases hp : parse (goTrim response) with
    | error parseErr =>
      simp only [hp] at h
      simp at h
    | ok action0 =>
      simp only [hp] at h
      by_cases hv : validateStrictAction (nr action0) = ""
      · rw [if_pos hv] at h
        simp only [Sum.inl.injEq, Prod.mk.injEq] at h
        rw [← h.1]
        exact hv
      · rw [if_neg hv] at h
        simp at h

/-- Unfolding equation of the attempt loop for positive fuel. -/
theorem decideStrictLoop_succ (gen : ℕ → GenOut)
    (parse : String → Except String Action) (nr : Action → Action)
    (base : Prompt) (attempt fuel : ℕ) (prompt : Prompt)
    (lastRaw lastErr : String) :
    decideStrictLoop gen parse nr base attempt (fuel + 1) prompt lastRaw lastErr =
      match strictAttempt parse nr (gen attempt) lastRaw lastErr with
      | .inl result => (.ok result, [(prompt, "")])
      | .inr (raw1, err1) =>
        if fuel = 0 then (.error (raw1, strictFailMsg err1), [(prompt, err1)])
        else
          let next := decideStrictLoop gen parse nr base
            (attempt + 1) fuel (strictRetryPrompt base err1 attempt) raw1 err1
          (next.1, (prompt, err1) :: next.2) := rfl

/-- Invariant of the attempt loop, by induction on the remaining fuel: the
log has one entry per attempt made (at most `fuel`), begins with the prompt
handed in, chains retry prompts from the recorded reasons, successes are
validated, and exhaustion produces the failure message from the last
(non-empty) recorded reason. -/
theorem decideStrictLoop_spec (gen : ℕ → GenOut)
    (parse : String → Except String Action) (nr : Action → Action)
    (base : Prompt) :
    ∀ fuel attempt prompt lastRaw lastErr res log,
      0 < fuel →
      decideStrictLoop gen parse nr base attempt fuel prompt lastRaw lastErr
        = (res, log) →
      log.length ≤ fuel
      ∧ log.head?.map Prod.fst = some prompt
      ∧ (∀ i p1 pe1 p2 pe2, log[i]? = some (p1, pe1) →
          log[i + 1]? = some (p2, pe2) →
          pe1 ≠ "" ∧ p2 = strictRetryPrompt base pe1 (attempt + i))
      ∧ (∀ a raw, res = Except.ok (a, raw) → validateStrictAction a = "")
      ∧ (∀ raw msg, res = Except.error (raw, msg) →
          log.length = fuel ∧ ∃ le, log.getLast?.map Prod.snd = some le
            ∧ le ≠ "" ∧ msg = strictFailMsg le) := by
  intro fuel
  induction fuel with
  | zero =>
    intro _ _ _ _ _ _ h0
    exact absurd h0 (by omega)
  | succ f ih =>
    intro attempt prompt lastRaw lastErr res log _ heq
    rw [decideStrictLoop_succ] at heq
    rcases h1 : strictAttempt parse nr (gen attempt) lastRaw lastErr
      with ⟨a1, raw1⟩ | ⟨r1, e1⟩
    · simp only [h1, Prod.mk.injEq] at heq
      obtain ⟨rfl, rfl⟩ := heq
      refine ⟨by simp, rfl, ?_, ?_, ?_⟩
      · intro i p1 pe1 p2 pe2 hh1 hh2
        simp at hh2
      · intro a raw hok
        simp only [Except.ok.injEq, Prod.mk.injEq] at hok
        rw [← hok.1]
        exact strictAttempt_inl_validated _ _ _ _ _ _ _ h1
      · intro raw msg herr
        simp at herr
    · have hne1 : e1 ≠ "" := strictAttempt_inr_ne_empty _ _ _ _ _ _ _ h1
      simp only [h1] at heq
      by_cases hf : f = 0
      · rw [if_pos hf] at heq
        simp only [Prod.mk.injEq] at heq
        obtain ⟨rfl, rfl⟩ := heq
        subst hf
        refine ⟨by simp, rfl, ?_, ?_, ?_⟩
        · intro i p1 pe1 p2 pe2 hh1 hh2
          simp at hh2
        · intro a raw hok
          simp at hok
        · intro raw msg herr
          simp only [Except.error.injEq, Prod.mk.injEq] at herr
          exact ⟨by simp, e1, by simp, hne1, herr.2.symm⟩
      · rw [if_neg hf] at heq
        simp only [Prod.mk.injEq] at heq
        obtain ⟨hres, hlog⟩ := heq
        rcases hnext : decideStrictLoop gen parse nr base (attempt + 1) f
            (strictRetryPrompt base e1 attempt) r1 e1 with ⟨nres, nlog⟩
        obtain ⟨ihlen, ihhead, ihchain, ihok, iherr⟩ :=
          ih (attempt + 1) (strictRetryPrompt base e1 attempt) r1 e1 nres nlog
            (by omega) hnext
        rw [hnext] at hres hlog
        simp only at hres hlog
        subst hres
        subst hlog
        refine ⟨?_, rfl, ?_, ?_, ?_⟩
        · simp only [List.length_cons]
          omega
        · intro i p1 pe1 p2 pe2 hh1 hh2
          rcases i with _ | n
          · simp only [List.getElem?_cons_zero, Option.some.injEq,
              Prod.mk.injEq] at hh1
            obtain ⟨rfl, rfl⟩ := hh1
            simp only [List.getElem?_cons_succ] at hh2
            rcases nlog with _ | ⟨x, xs⟩
            · simp at hh2
            · simp only [List.head?_cons, Option.map_some'] at ihhead
              simp only [List.getElem?_cons_zero, Option.some.injEq] at hh2
              subst hh2
              refine ⟨hne1, ?_⟩
              rw [Nat.add_zero]
              exact Option.some.inj ihhead
          · simp only [List.getElem?_cons_succ] at hh1 hh2
            have hc := ihchain n p1 pe1 p2 pe2 hh1 hh2
            refine ⟨hc.1, ?_⟩
            rw [hc.2]
            congr 1
            omega
        · intro a raw hok
          exact ihok a raw hok
        · intro raw msg herr
          obtain ⟨hlen, le, hlast, hlene, hmsg⟩ := iherr raw msg herr
          refine ⟨by simp only [List.length_cons]; omega, le, ?_, hlene, hmsg⟩
          rcases nlog with _ | ⟨x, xs⟩
          · simp at hlen
            omega
          · rw [List.getLast?_cons_cons]
            exact hlast

/-- C6: the strict decision engine makes at most 3 attempts; the first
prompt is the base prompt and every retry prompt is the base re-augmented
with the last rejection reason and the attempt count; a success returns an
action passing strict validation; exhaustion returns — as a value, never a
crash — an error carrying the last raw text together with the last
(non-empty) rejection reason. -/
theorem decideStrict_spec (gen : ℕ → GenOut)
    (parse : String → Except String Action) (normalizeRepair : Action → Action)
    (base : Prompt) :
    (decideStrict gen parse normalizeRepair base).2.length ≤ decisionMaxAttempts
    ∧ ((decideStrict gen parse normalizeRepair base).2.head?).map Prod.fst
        = some base
    ∧ (∀ i p1 pe1 p2 pe2,
        (decideStrict gen parse normalizeRepair base).2[i]? = some (p1, pe1) →
        (decideStrict gen parse normalizeRepair base).2[i + 1]? = some (p2, pe2) →
        pe1 ≠ "" ∧ p2 = strictRetryPrompt base pe1 (i + 1))
    ∧ (∀ a raw,
        (decideStrict gen parse normalizeRepair base).1 = Except.ok (a, raw) →
        validateStrictAction a = "")
    ∧ (∀ raw msg,
        (decideStrict gen parse normalizeRepair base).1 = Except.error (raw, msg) →
        (decideStrict gen parse normalizeRepair base).2.length = decisionMaxAttempts
        ∧ ∃ lastErr,
            ((decideStrict gen parse normalizeRepair base).2.getLast?).map Prod.snd
              = some lastErr
            ∧ lastErr ≠ "" ∧ msg = strictFailMsg lastErr) := by
  rcases hres : decideStrict gen parse normalizeRepair base with ⟨res, log⟩
  obtain ⟨h1, h2, h3, h4, h5⟩ :=
    decideStrictLoop_spec gen parse normalizeRepair base decisionMaxAttempts 1
      base "" "no decision produced" res log (by decide) hres
  refine ⟨h1, h2, ?_, h4, h5⟩
  intro i p1 pe1 p2 pe2 hh1 hh2
  have hc := h3 i p1 pe1 p2 pe2 hh1 hh2
  refine ⟨hc.1, ?_⟩
  rw [hc.2]
  congr 1
  omega

/-- C5 witness: a wait action with hint 5 is accepted, and the theorem then
yields the non-negativity of its hint. -/
theorem validateStrictAction_accepts_sound_witness :
    validateStrictAction waitActionEx = "" ∧ 0 ≤ waitActionEx.nextCheckSec := by
  have h := validateStrictAction_accepts_sound waitActionEx (by decide)
  exact ⟨by decide, h.2.1 (by decide)⟩

/-- C9 witness: kind "noop" produces the literal distinct message, while an
unsupported kind "frobnicate" produces the generic invalid-kind message. -/
theorem validateStrictAction_noop_distinct_witness :
    validateStrictAction noopActionEx = "noop is not allowed"
    ∧ validateStrictAction badKindActionEx = "invalid action: frobnicate"
    ∧ validateStrictAction badKindActionEx ≠ "noop is not allowed" := by
  have h1 := (validateStrictAction_noop_distinct noopActionEx).1 (by decide)
  have h2 := (validateStrictAction_noop_distinct badKindActionEx).2 (by decide)
    (by decide) (by decide) (by decide) (by decide) (by decide)
  exact ⟨h1, h2.1, h2.2⟩

/-- C6 witness: with a generate oracle that always fails, the engine makes
exactly 3 attempts and reports the failure message built from the last
reason. -/
theorem decideStrict_spec_witness :
    (decideStrict constFailGen failParse id basePromptEx).2.length
      = decisionMaxAttempts := by
  exact ((decideStrict_spec constFailGen failParse id basePromptEx).2.2.2.2 ""
    (strictFailMsg "llm error: boom") rfl).1
